import Mathlib

/-!
Shallow embedding of `src/models/loss_utils.py` (module `models.loss_utils`).

The module defines three public loss functions (`loss_nl`, `loss_mse`,
`loss_xent`) and one private helper (`_loss_helper`), all built on TF 1.x
`tf.losses` primitives.  The relevant ambient state is the pair of
process-wide loss collections maintained by the framework:
`GraphKeys.LOSSES` (populated by the `tf.losses.*` loss ops themselves) and
`GraphKeys.REGULARIZATION_LOSSES` (populated by layer construction outside
this module).  We model that state explicitly as `LossState` and thread it
through the embedded functions; tensor arithmetic is modelled over an
arbitrary linear ordered field (instantiated at `ℚ` for executable
evaluation and at `ℝ` where `exp`/`log` are needed).

`tf.add_n` raises on an empty input list, so `get_total_loss` is partial:
we embed it with `Option`, and `_loss_helper` propagates the failure.
-/

namespace LossUtils

variable {α : Type*} [LinearOrderedField α]

/-- The process-wide loss collections (`tf.GraphKeys.LOSSES` and
`tf.GraphKeys.REGULARIZATION_LOSSES`).  The loss ops append to `losses`;
model construction (outside this module) appends to
`regularization_losses`. -/
structure LossState (α : Type*) where
  losses : List α
  regularization_losses : List α
  deriving Repr, DecidableEq

/-- `tf.add_n`: sums a list of tensors, raising (here: `none`) when the list
is empty. -/
def add_n (l : List α) : Option α :=
  if l.isEmpty then none else some l.sum

/-- `tf.losses.add_loss`: appends a loss to the `LOSSES` collection. -/
def add_loss (st : LossState α) (l : α) : LossState α :=
  ⟨st.losses ++ [l], st.regularization_losses⟩

/-- `tf.losses.get_regularization_loss`: `add_n` of the regularization
collection when non-empty, the constant `0` otherwise. -/
def get_regularization_loss (st : LossState α) : α :=
  if st.regularization_losses.isEmpty then 0 else st.regularization_losses.sum

/-- `tf.losses.get_total_loss`: `add_n` over the `LOSSES` collection,
extended with the regularization collection when
`add_regularization_losses` is set (the module always sets it). -/
def get_total_loss (st : LossState α) (add_regularization_losses : Bool) :
    Option α :=
  add_n (if add_regularization_losses then
    st.losses ++ st.regularization_losses else st.losses)

/-- Number of elements with non-zero weight, as a scalar
(`weights_broadcast_ops` / `_num_present` in TF's weighted-loss code). -/
def num_present (weights : List α) : α :=
  ((weights.filter fun w => decide (w ≠ 0)).length : α)

/-- `tf.losses.compute_weighted_loss` with reduction
`SUM_BY_NONZERO_WEIGHTS`: weighted sum of the element-wise losses divided by
the number of non-zero weights (`_safe_mean`, which yields `0` on an empty
denominator, matching field division by zero here). -/
def compute_weighted_loss (losses weights : List α) : α :=
  (List.zipWith (fun l w => l * w) losses weights).sum / num_present weights

/-- `tf.losses.mean_squared_error` with its default arguments
(`weights=1.0`, `loss_collection=GraphKeys.LOSSES`,
`reduction=SUM_BY_NONZERO_WEIGHTS`): computes the squared differences,
reduces them with the all-ones weights broadcast to their shape, and
registers the resulting scalar in the `LOSSES` collection.  Returns the
scalar together with the updated collection state. -/
def mean_squared_error (st : LossState α) (labels preds : List α) :
    α × LossState α :=
  let sq := List.zipWith (fun l p => (p - l) ^ 2) labels preds
  let v := compute_weighted_loss sq (List.replicate sq.length 1)
  (v, add_loss st v)

/-- A scalar summary record, `tf.summary.scalar tag value`: one named scalar
observation. -/
def scalar_summary (tag : String) (value : α) : List (String × α) :=
  [(tag, value)]

/-- `tf.summary.merge`: merges a list of summary bundles into one. -/
def merge_summaries (l : List (List (String × α))) : List (String × α) :=
  l.flatten

/-- `_loss_helper(loss, loss_name, add_summaries)` from the source: reads
`loss_total = tf.losses.get_total_loss(add_regularization_losses=True)` and
`loss_reg = tf.losses.get_regularization_loss()` from the ambient state,
optionally builds the merged summary bundle, and returns
`(loss_total, loss_reg, loss_summaries)`.  `none` models the `tf.add_n`
failure when both collections are empty. -/
def loss_helper (st : LossState α) (loss : α) (loss_name : String)
    (add_summaries : Bool) : Option (α × α × Option (List (String × α))) :=
  match get_total_loss st true with
  | none => none
  | some loss_total =>
    let loss_reg := get_regularization_loss st
    let loss_summaries :=
      if add_summaries then
        some (merge_summaries
          [scalar_summary "loss_total" loss_total,
           scalar_summary "loss_regularization_only" loss_reg,
           scalar_summary loss_name loss])
      else none
    some (loss_total, loss_reg, loss_summaries)

/-- `loss_nl(labels, preds, years, add_summaries)` from the source:
per-example selection `tf.where(years < 2012, preds[:, 0], preds[:, 1])`
(DMSP column for years before 2012, VIIRS column otherwise), then
`tf.losses.mean_squared_error` on the selected predictions, then
`_loss_helper` with summary name `loss_mse`.  Returns
`(loss_total, loss_mse, loss_reg, loss_summaries)`. -/
def loss_nl (st : LossState α) (labels : List α) (preds : List (α × α))
    (years : List ℤ) (add_summaries : Bool) :
    Option (α × α × α × Option (List (String × α))) :=
  let selected := List.zipWith
    (fun (y : ℤ) (p : α × α) => if y < 2012 then p.1 else p.2) years preds
  let r := mean_squared_error st labels selected
  (loss_helper r.2 r.1 "loss_mse" add_summaries).map
    fun o => (o.1, r.1, o.2.1, o.2.2)

/-- `loss_mse(labels, preds, add_summaries)` from the source:
`tf.losses.mean_squared_error(labels, preds)` followed by `_loss_helper`
with summary name `loss_mse`.  Returns
`(loss_total, loss_mse, loss_reg, loss_summaries)`. -/
def loss_mse (st : LossState α) (labels preds : List α)
    (add_summaries : Bool) :
    Option (α × α × α × Option (List (String × α))) :=
  let r := mean_squared_error st labels preds
  (loss_helper r.2 r.1 "loss_mse" add_summaries).map
    fun o => (o.1, r.1, o.2.1, o.2.2)

/-- Per-example fused op `tf.nn.sparse_softmax_cross_entropy_with_logits`
on one row of logits and one integer label: the cross entropy of the
softmax of the row against the class `label`, computed as
`log (sum of exp of the row) - row[label]`. -/
noncomputable def sparse_xent_with_logits (label : ℕ) (row : List ℝ) : ℝ :=
  Real.log (row.map Real.exp).sum - row.getD label 0

/-- `tf.losses.sparse_softmax_cross_entropy(labels, logits,
reduction=SUM_BY_NONZERO_WEIGHTS)` with default `weights=1.0`: per-example
fused softmax cross entropies, reduced by the all-ones weights broadcast to
their shape, and the scalar registered in the `LOSSES` collection. -/
noncomputable def sparse_softmax_cross_entropy (st : LossState ℝ)
    (labels : List ℕ) (logits : List (List ℝ)) : ℝ × LossState ℝ :=
  let ce := List.zipWith sparse_xent_with_logits labels logits
  let v := compute_weighted_loss ce (List.replicate ce.length 1)
  (v, add_loss st v)

/-- `loss_xent(labels, logits, add_summaries)` from the source:
`tf.losses.sparse_softmax_cross_entropy` followed by `_loss_helper` with
summary name `loss_cross_entropy`.  Returns
`(loss_total, loss_xent, loss_reg, loss_summaries)`. -/
noncomputable def loss_xent (st : LossState ℝ) (labels : List ℕ)
    (logits : List (List ℝ)) (add_summaries : Bool) :
    Option (ℝ × ℝ × ℝ × Option (List (String × ℝ))) :=
  let r := sparse_softmax_cross_entropy st labels logits
  (loss_helper r.2 r.1 "loss_cross_entropy" add_summaries).map
    fun o => (o.1, r.1, o.2.1, o.2.2)

/-- The mathematical softmax of one row of logits, evaluated at class `j`
(spec formulation: "applies a softmax to the logits"). -/
noncomputable def softmax (row : List ℝ) (j : ℕ) : ℝ :=
  Real.exp (row.getD j 0) / (row.map Real.exp).sum

/-! ### Internal lemmas -/

lemma get_regularization_loss_eq_sum (st : LossState α) :
    get_regularization_loss st = st.regularization_losses.sum := by
  cases h : st.regularization_losses <;> simp [get_regularization_loss, h]

lemma loss_helper_add_loss (st : LossState α) (v loss : α) (name : String)
    (b : Bool) :
    loss_helper (add_loss st v) loss name b =
      some (st.losses.sum + (v + st.regularization_losses.sum),
        st.regularization_losses.sum,
        if b then
          some [("loss_total",
                  st.losses.sum + (v + st.regularization_losses.sum)),
                ("loss_regularization_only", st.regularization_losses.sum),
                (name, loss)]
        else none) := by
  have hne : ((st.losses ++ [v]) ++ st.regularization_losses).isEmpty
      = false := by
    simp
  simp [loss_helper, get_total_loss, add_n, add_loss, hne,
    get_regularization_loss_eq_sum, merge_summaries, scalar_summary]

lemma filter_ne_zero_replicate_one (n : ℕ) :
    (List.replicate n (1 : α)).filter (fun w => decide (w ≠ 0))
      = List.replicate n 1 :=
  List.filter_eq_self.mpr fun a ha => by
    rw [List.eq_of_mem_replicate ha]
    exact decide_eq_true one_ne_zero

lemma num_present_replicate_one (n : ℕ) :
    num_present (List.replicate n (1 : α)) = n := by
  simp [num_present, filter_ne_zero_replicate_one]

lemma zipWith_mul_one (xs : List α) :
    List.zipWith (fun l w => l * w) xs (List.replicate xs.length 1) = xs := by
  induction xs with
  | nil => simp
  | cons a l ih => simp [List.replicate_succ, ih]

lemma mean_squared_error_fst (st : LossState α) (labels preds : List α) :
    (mean_squared_error st labels preds).1 =
      (List.zipWith (fun l p => (p - l) ^ 2) labels preds).sum /
        ((List.zipWith (fun l p => (p - l) ^ 2) labels preds).length : α) := by
  have h : (mean_squared_error st labels preds).1 =
      compute_weighted_loss
        (List.zipWith (fun l p => (p - l) ^ 2) labels preds)
        (List.replicate
          (List.zipWith (fun l p => (p - l) ^ 2) labels preds).length 1) := rfl
  rw [h]
  unfold compute_weighted_loss
  rw [zipWith_mul_one, num_present_replicate_one]

lemma mean_squared_error_snd (st : LossState α) (labels preds : List α) :
    (mean_squared_error st labels preds).2 =
      add_loss st (mean_squared_error st labels preds).1 := rfl

lemma loss_mse_eq (st : LossState α) (labels preds : List α) (b : Bool) :
    loss_mse st labels preds b =
      some (st.losses.sum + ((mean_squared_error st labels preds).1 +
          st.regularization_losses.sum),
        (mean_squared_error st labels preds).1,
        st.regularization_losses.sum,
        if b then
          some [("loss_total",
                  st.losses.sum + ((mean_squared_error st labels preds).1 +
                    st.regularization_losses.sum)),
                ("loss_regularization_only", st.regularization_losses.sum),
                ("loss_mse", (mean_squared_error st labels preds).1)]
        else none) := by
  have h : loss_mse st labels preds b =
      (loss_helper (add_loss st (mean_squared_error st labels preds).1)
        (mean_squared_error st labels preds).1 "loss_mse" b).map
          fun o => (o.1, (mean_squared_error st labels preds).1, o.2.1, o.2.2)
    := rfl
  rw [h, loss_helper_add_loss]
  rfl

lemma loss_nl_eq (st : LossState α) (labels : List α) (preds : List (α × α))
    (years : List ℤ) (b : Bool) :
    loss_nl st labels preds years b =
      loss_mse st labels
        (List.zipWith (fun (y : ℤ) (p : α × α) => if y < 2012 then p.1 else p.2)
          years preds) b := rfl

lemma sparse_softmax_cross_entropy_fst (st : LossState ℝ) (labels : List ℕ)
    (logits : List (List ℝ)) :
    (sparse_softmax_cross_entropy st labels logits).1 =
      (List.zipWith sparse_xent_with_logits labels logits).sum /
        num_present (List.replicate
          (List.zipWith sparse_xent_with_logits labels logits).length
          (1 : ℝ)) := by
  have h : (sparse_softmax_cross_entropy st labels logits).1 =
      compute_weighted_loss
        (List.zipWith sparse_xent_with_logits labels logits)
        (List.replicate
          (List.zipWith sparse_xent_with_logits labels logits).length 1) := rfl
  rw [h]
  unfold compute_weighted_loss
  rw [zipWith_mul_one]

lemma loss_xent_eq (st : LossState ℝ) (labels : List ℕ)
    (logits : List (List ℝ)) (b : Bool) :
    loss_xent st labels logits b =
      some (st.losses.sum + ((sparse_softmax_cross_entropy st labels logits).1 +
          st.regularization_losses.sum),
        (sparse_softmax_cross_entropy st labels logits).1,
        st.regularization_losses.sum,
        if b then
          some [("loss_total",
                  st.losses.sum +
                    ((sparse_softmax_cross_entropy st labels logits).1 +
                    st.regularization_losses.sum)),
                ("loss_regularization_only", st.regularization_losses.sum),
                ("loss_cross_entropy",
                  (sparse_softmax_cross_entropy st labels logits).1)]
        else none) := by
  have h : loss_xent st labels logits b =
      (loss_helper
        (add_loss st (sparse_softmax_cross_entropy st labels logits).1)
        (sparse_softmax_cross_entropy st labels logits).1
        "loss_cross_entropy" b).map
          fun o => (o.1, (sparse_softmax_cross_entropy st labels logits).1,
            o.2.1, o.2.2) := rfl
  rw [h, loss_helper_add_loss]
  rfl

lemma sel_sq_sum :
    ∀ (labels : List α) (preds : List (α × α)) (years : List ℤ),
    labels.length = preds.length → years.length = preds.length →
    (List.zipWith (fun l p => (p - l) ^ 2) labels
      (List.zipWith (fun (y : ℤ) (p : α × α) => if y < 2012 then p.1 else p.2)
        years preds)).sum
    = ∑ i ∈ Finset.range labels.length,
        ((if years.getD i 0 < 2012 then (preds.getD i (0, 0)).1
          else (preds.getD i (0, 0)).2) - labels.getD i 0) ^ 2 := by
  intro labels
  induction labels with
  | nil => intro preds years _ _; simp
  | cons a l ih =>
    intro preds years h1 h2
    cases preds with
    | nil => simp at h1
    | cons p ps =>
      cases years with
      | nil => simp at h2
      | cons y ys =>
        simp only [List.zipWith_cons_cons, List.sum_cons, List.length_cons]
        rw [Finset.sum_range_succ']
        simp only [List.getD_cons_succ, List.getD_cons_zero]
        rw [ih ps ys (by simpa using h1) (by simpa using h2)]
        exact add_comm _ _

omit [LinearOrderedField α] in
lemma select_all_lt :
    ∀ (years : List ℤ) (preds : List (α × α)),
    years.length = preds.length → (∀ y ∈ years, y < 2012) →
    List.zipWith (fun (y : ℤ) (p : α × α) => if y < 2012 then p.1 else p.2)
      years preds = preds.map Prod.fst := by
  intro years
  induction years with
  | nil => intro preds h _; simp [(List.length_eq_zero.mp h.symm)]
  | cons y ys ih =>
    intro preds h hall
    cases preds with
    | nil => simp at h
    | cons p ps =>
      simp only [List.zipWith_cons_cons, List.map_cons]
      rw [if_pos (hall y (by simp)), ih ps (by simpa using h)
        (fun z hz => hall z (by simp [hz]))]

omit [LinearOrderedField α] in
lemma select_all_ge :
    ∀ (years : List ℤ) (preds : List (α × α)),
    years.length = preds.length → (∀ y ∈ years, 2012 ≤ y) →
    List.zipWith (fun (y : ℤ) (p : α × α) => if y < 2012 then p.1 else p.2)
      years preds = preds.map Prod.snd := by
  intro years
  induction years with
  | nil => intro preds h _; simp [(List.length_eq_zero.mp h.symm)]
  | cons y ys ih =>
    intro preds h hall
    cases preds with
    | nil => simp at h
    | cons p ps =>
      simp only [List.zipWith_cons_cons, List.map_cons]
      rw [if_neg (not_lt.mpr (hall y (by simp))), ih ps (by simpa using h)
        (fun z hz => hall z (by simp [hz]))]

lemma sparse_xent_eq_neg_log_softmax (l : ℕ) (row : List ℝ)
    (h : l < row.length) :
    sparse_xent_with_logits l row = -Real.log (softmax row l) := by
  have hrow : row ≠ [] := by
    intro e
    rw [e] at h
    simp at h
  have hpos : 0 < (row.map Real.exp).sum := by
    refine List.sum_pos _ ?_ ?_
    · intro x hx
      obtain ⟨a, _, rfl⟩ := List.mem_map.mp hx
      exact Real.exp_pos a
    · simpa using hrow
  unfold sparse_xent_with_logits softmax
  rw [Real.log_div (Real.exp_ne_zero _) (ne_of_gt hpos), Real.log_exp]
  ring

lemma zipWith_congr_mem {β γ δ : Type*} (f g : β → γ → δ) :
    ∀ (l1 : List β) (l2 : List γ),
    (∀ p ∈ List.zip l1 l2, f p.1 p.2 = g p.1 p.2) →
    List.zipWith f l1 l2 = List.zipWith g l1 l2 := by
  intro l1
  induction l1 with
  | nil => intro l2 _; simp
  | cons a l ih =>
    intro l2 h
    cases l2 with
    | nil => simp
    | cons b m =>
      simp only [List.zipWith_cons_cons]
      rw [h (a, b) (by simp [List.zip_cons_cons]),
        ih m (fun p hp => h p (by simp [List.zip_cons_cons, hp]))]

lemma loss_helper_of_ne_nil (st : LossState α) (loss : α) (name : String)
    (b : Bool) (h : st.losses ++ st.regularization_losses ≠ []) :
    loss_helper st loss name b =
      some ((st.losses ++ st.regularization_losses).sum,
        st.regularization_losses.sum,
        if b then
          some [("loss_total", (st.losses ++ st.regularization_losses).sum),
                ("loss_regularization_only", st.regularization_losses.sum),
                (name, loss)]
        else none) := by
  have hne : (st.losses ++ st.regularization_losses).isEmpty = false := by
    simp [h]
  simp [loss_helper, get_total_loss, add_n, hne,
    get_regularization_loss_eq_sum, merge_summaries, scalar_summary]

/-! ### Claims -/

/-- C1: the spec claims that for every call to any of the three public loss
functions the returned total equals returned task loss plus returned
regularization loss.  This fails on the code: `_loss_helper` obtains the
total from `tf.losses.get_total_loss()`, which sums the whole process-wide
`LOSSES` collection; any loss registered in the collection before the call
is included in the total but not in the returned task loss.  Concretely,
with a prior loss of `7` in the collection, `loss_mse` on
`labels=[1], preds=[2]` returns total `8`, task loss `1` and regularization
loss `0`, and `8 ≠ 1 + 0`. -/
theorem c1_total_decomposition_counterexample :
    loss_mse (α := ℚ) ⟨[7], []⟩ [1] [2] false = some (8, 1, 0, none) ∧
      (8 : ℚ) ≠ 1 + 0 := by
  constructor
  · norm_num [loss_mse, loss_helper, mean_squared_error,
      compute_weighted_loss, num_present, get_total_loss,
      get_regularization_loss, add_n, add_loss, List.replicate_succ]
  · norm_num

/-- C1 (amended): for every call to any of the three public loss functions
made while the process-wide `LOSSES` collection is empty (the fresh-graph
situation in which the module is used), the returned total loss equals the
returned task loss plus the returned regularization loss, exactly. -/
theorem c1_total_eq_task_plus_reg_of_fresh :
    (∀ (st : LossState ℝ) labels preds years b, st.losses = [] →
      ∃ total task reg s, loss_nl st labels preds years b
        = some (total, task, reg, s) ∧ total = task + reg) ∧
    (∀ (st : LossState ℝ) labels preds b, st.losses = [] →
      ∃ total task reg s, loss_mse st labels preds b
        = some (total, task, reg, s) ∧ total = task + reg) ∧
    (∀ (st : LossState ℝ) labels logits b, st.losses = [] →
      ∃ total task reg s, loss_xent st labels logits b
        = some (total, task, reg, s) ∧ total = task + reg) := by
  refine ⟨?_, ?_, ?_⟩
  · intro st labels preds years b h
    rw [loss_nl_eq, loss_mse_eq]
    exact ⟨_, _, _, _, rfl, by rw [h]; simp⟩
  · intro st labels preds b h
    rw [loss_mse_eq]
    exact ⟨_, _, _, _, rfl, by rw [h]; simp⟩
  · intro st labels logits b h
    rw [loss_xent_eq]
    exact ⟨_, _, _, _, rfl, by rw [h]; simp⟩

/-- C1 witness: the amended statement applied to concrete calls of the
three functions on a fresh `LOSSES` collection with one accumulated
regularization loss `2`. -/
theorem c1_total_eq_task_plus_reg_of_fresh_witness :
    (∃ total task reg s,
      loss_nl (⟨[], [2]⟩ : LossState ℝ) [0, 0] [(1, 5), (1, 5)]
        [2011, 2012] true = some (total, task, reg, s) ∧
        total = task + reg) ∧
    (∃ total task reg s,
      loss_mse (⟨[], [2]⟩ : LossState ℝ) [1, 2, 3] [1, 2, 4] true
        = some (total, task, reg, s) ∧ total = task + reg) ∧
    (∃ total task reg s,
      loss_xent (⟨[], [2]⟩ : LossState ℝ) [0, 1] [[2, 1], [0, 3]] true
        = some (total, task, reg, s) ∧ total = task + reg) :=
  ⟨c1_total_eq_task_plus_reg_of_fresh.1 ⟨[], [2]⟩ [0, 0] [(1, 5), (1, 5)]
      [2011, 2012] true rfl,
    c1_total_eq_task_plus_reg_of_fresh.2.1 ⟨[], [2]⟩ [1, 2, 3] [1, 2, 4]
      true rfl,
    c1_total_eq_task_plus_reg_of_fresh.2.2 ⟨[], [2]⟩ [0, 1] [[2, 1], [0, 3]]
      true rfl⟩

/-- C2: the spec claims `_loss_helper` computes its total as the passed
task loss plus the retrieved regularization loss, for every passed value
and every accumulator state.  This fails on the code: the passed task loss
is never used for the total; `tf.losses.get_total_loss()` sums the `LOSSES`
collection instead.  Concretely, with a single accumulated loss `1` and a
passed task loss of `5`, the helper returns total `1` and regularization
loss `0`, and `1 ≠ 5 + 0`. -/
theorem c2_helper_counterexample :
    loss_helper (α := ℚ) ⟨[1], []⟩ 5 "x" false = some (1, 0, none) ∧
      (1 : ℚ) ≠ 5 + 0 := by
  constructor
  · norm_num [loss_helper, get_total_loss, get_regularization_loss, add_n]
  · norm_num

/-- C2 (amended): whenever the collections are not both empty (otherwise
`tf.add_n` fails), `_loss_helper` returns as total the sum of the
process-wide `LOSSES` collection and the regularization collection, and as
regularization loss the sum of the regularization collection; the total
equals the passed task loss plus the retrieved regularization loss exactly
when the `LOSSES` collection sums to the passed task loss. -/
theorem c2_helper_total_from_collections (st : LossState α) (loss : α)
    (name : String) (b : Bool)
    (h : st.losses ++ st.regularization_losses ≠ []) :
    ∃ s, loss_helper st loss name b
      = some ((st.losses ++ st.regularization_losses).sum,
          st.regularization_losses.sum, s) ∧
      ((st.losses ++ st.regularization_losses).sum
          = loss + st.regularization_losses.sum ↔ st.losses.sum = loss) := by
  rw [loss_helper_of_ne_nil st loss name b h]
  exact ⟨_, rfl, by rw [List.sum_append]; exact add_left_inj _⟩

/-- C2 witness: the amended statement applied to the helper with
accumulated losses `[3]`, regularization losses `[2]` and passed task loss
`3` (which the collection does sum to, so total `5 = 3 + 2`). -/
theorem c2_helper_total_from_collections_witness :
    ∃ s, loss_helper (⟨[3], [2]⟩ : LossState ℚ) 3 "loss_mse" false
      = some ((([3] : List ℚ) ++ [2]).sum, ([2] : List ℚ).sum, s) ∧
      ((([3] : List ℚ) ++ [2]).sum = 3 + ([2] : List ℚ).sum ↔
        ([3] : List ℚ).sum = 3) :=
  c2_helper_total_from_collections ⟨[3], [2]⟩ 3 "loss_mse" false (by simp)

/-- C6: the spec claims that whenever the regularization accumulator is
empty or holds zero, total equals task loss for every call.  This fails on
the code for the same reason as the total-decomposition invariant: a loss
already registered in the process-wide `LOSSES` collection enters the
total.  Concretely, with an empty regularization accumulator but a prior
loss `1` in the `LOSSES` collection, `loss_mse` on `labels=[0], preds=[0]`
returns total `1` and task loss `0`, and `1 ≠ 0`. -/
theorem c6_zero_reg_counterexample :
    loss_mse (α := ℚ) ⟨[1], []⟩ [0] [0] false = some (1, 0, 0, none) ∧
      (1 : ℚ) ≠ 0 := by
  constructor
  · norm_num [loss_mse, loss_helper, mean_squared_error,
      compute_weighted_loss, num_present, get_total_loss,
      get_regularization_loss, add_n, add_loss, List.replicate_succ]
  · norm_num

/-- C6 (amended): for every call to any of the three public functions made
while the regularization accumulator is empty or sums to zero, the call
succeeds and returns a regularization value of `0` rather than a failure —
for every state of the process-wide `LOSSES` collection; and when
additionally the `LOSSES` collection is empty before the call, the returned
total loss equals the returned task loss. -/
theorem c6_zero_reg_value_and_fresh_total_eq_task :
    (∀ (st : LossState ℝ) labels preds years b,
      st.regularization_losses.sum = 0 →
      ∃ total task s, loss_nl st labels preds years b
        = some (total, task, 0, s) ∧ (st.losses = [] → total = task)) ∧
    (∀ (st : LossState ℝ) labels preds b,
      st.regularization_losses.sum = 0 →
      ∃ total task s, loss_mse st labels preds b
        = some (total, task, 0, s) ∧ (st.losses = [] → total = task)) ∧
    (∀ (st : LossState ℝ) labels logits b,
      st.regularization_losses.sum = 0 →
      ∃ total task s, loss_xent st labels logits b
        = some (total, task, 0, s) ∧ (st.losses = [] → total = task)) := by
  refine ⟨?_, ?_, ?_⟩
  · intro st labels preds years b h2
    rw [loss_nl_eq, loss_mse_eq, h2]
    exact ⟨_, _, _, rfl, fun h1 => by rw [h1]; simp⟩
  · intro st labels preds b h2
    rw [loss_mse_eq, h2]
    exact ⟨_, _, _, rfl, fun h1 => by rw [h1]; simp⟩
  · intro st labels logits b h2
    rw [loss_xent_eq, h2]
    exact ⟨_, _, _, rfl, fun h1 => by rw [h1]; simp⟩

/-- C6 witness: the amended statement applied to concrete calls with an
empty regularization accumulator — `loss_nl` on a non-empty prior `LOSSES`
collection `[5]` (the zero-regularization conjunct holds there too), and
`loss_mse`, `loss_xent` on completely empty collections. -/
theorem c6_zero_reg_value_and_fresh_total_eq_task_witness :
    (∃ total task s, loss_nl (⟨[5], []⟩ : LossState ℝ) [0, 0]
      [(1, 5), (1, 5)] [2011, 2012] false = some (total, task, 0, s) ∧
      ((⟨[5], []⟩ : LossState ℝ).losses = [] → total = task)) ∧
    (∃ total task s, loss_mse (⟨[], []⟩ : LossState ℝ) [1, 2, 3]
      [1, 2, 4] false = some (total, task, 0, s) ∧
      ((⟨[], []⟩ : LossState ℝ).losses = [] → total = task)) ∧
    (∃ total task s, loss_xent (⟨[], []⟩ : LossState ℝ) [0, 1]
      [[2, 1], [0, 3]] false = some (total, task, 0, s) ∧
      ((⟨[], []⟩ : LossState ℝ).losses = [] → total = task)) :=
  ⟨c6_zero_reg_value_and_fresh_total_eq_task.1 ⟨[5], []⟩ [0, 0]
      [(1, 5), (1, 5)] [2011, 2012] false rfl,
    c6_zero_reg_value_and_fresh_total_eq_task.2.1 ⟨[], []⟩ [1, 2, 3]
      [1, 2, 4] false rfl,
    c6_zero_reg_value_and_fresh_total_eq_task.2.2 ⟨[], []⟩ [0, 1]
      [[2, 1], [0, 3]] false rfl⟩

/-- C9: on `labels = [1, 2, 3]`, `preds = [1, 2, 4]` with both loss
collections empty (zero regularization), `loss_mse` returns task loss
`1/3` and total loss `1/3` (with either summary-flag value). -/
theorem c9_concrete_mse_one_third :
    loss_mse (α := ℚ) ⟨[], []⟩ [1, 2, 3] [1, 2, 4] false
      = some (1/3, 1/3, 0, none) ∧
    ∃ s, loss_mse (α := ℚ) ⟨[], []⟩ [1, 2, 3] [1, 2, 4] true
      = some (1/3, 1/3, 0, some s) := by
  constructor
  · norm_num [loss_mse, loss_helper, mean_squared_error,
      compute_weighted_loss, num_present, get_total_loss,
      get_regularization_loss, add_n, add_loss, List.replicate_succ]
  · refine ⟨[("loss_total", 1/3), ("loss_regularization_only", 0),
      ("loss_mse", 1/3)], ?_⟩
    norm_num [loss_mse, loss_helper, mean_squared_error,
      compute_weighted_loss, num_present, get_total_loss,
      get_regularization_loss, add_n, add_loss, List.replicate_succ,
      merge_summaries, scalar_summary]

/-- C3: in `loss_nl` the selection between the two prediction columns is
per-example: example `i` contributes the DMSP (first-column) prediction iff
its year is strictly below 2012 and the VIIRS (second-column) prediction
otherwise (including year exactly 2012), and the returned task loss is the
mean over the batch of the squared differences between the selected
predictions and the labels. -/
theorem c3_nl_per_example_selection (st : LossState α) (labels : List α)
    (preds : List (α × α)) (years : List ℤ) (b : Bool)
    (h1 : labels.length = preds.length) (h2 : years.length = preds.length) :
    ∃ total reg s, loss_nl st labels preds years b
      = some (total,
        (∑ i ∈ Finset.range labels.length,
          ((if years.getD i 0 < 2012 then (preds.getD i (0, 0)).1
            else (preds.getD i (0, 0)).2) - labels.getD i 0) ^ 2)
          / (labels.length : α),
        reg, s) := by
  have hlen : ((List.zipWith (fun l p => (p - l) ^ 2) labels
      (List.zipWith (fun (y : ℤ) (p : α × α) => if y < 2012 then p.1 else p.2)
        years preds)).length : α) = (labels.length : α) := by
    simp [List.length_zipWith, h1, h2]
  have htask : (mean_squared_error st labels
      (List.zipWith (fun (y : ℤ) (p : α × α) => if y < 2012 then p.1 else p.2)
        years preds)).1
      = (∑ i ∈ Finset.range labels.length,
          ((if years.getD i 0 < 2012 then (preds.getD i (0, 0)).1
            else (preds.getD i (0, 0)).2) - labels.getD i 0) ^ 2)
          / (labels.length : α) := by
    rw [mean_squared_error_fst, hlen, sel_sq_sum labels preds years h1 h2]
  rw [loss_nl_eq, loss_mse_eq, htask]
  exact ⟨_, _, _, rfl⟩

/-- C3 witness: the per-example-selection statement applied to a concrete
batch mixing a pre-2012 and a post-2012 year. -/
theorem c3_nl_per_example_selection_witness :
    ∃ total reg s,
      loss_nl (⟨[], []⟩ : LossState ℚ) [1, 2] [(3, 4), (5, 6)] [2011, 2013]
        false
      = some (total,
        (∑ i ∈ Finset.range ([(1 : ℚ), 2]).length,
          ((if [(2011 : ℤ), 2013].getD i 0 < 2012
            then ([((3 : ℚ), (4 : ℚ)), (5, 6)].getD i (0, 0)).1
            else ([((3 : ℚ), (4 : ℚ)), (5, 6)].getD i (0, 0)).2)
            - [(1 : ℚ), 2].getD i 0) ^ 2)
          / (([(1 : ℚ), 2]).length : ℚ),
        reg, s) :=
  c3_nl_per_example_selection ⟨[], []⟩ [1, 2] [(3, 4), (5, 6)] [2011, 2013]
    false rfl rfl

/-- C4: when every year in the batch is strictly below 2012, `loss_nl`
returns exactly what `loss_mse` returns on the first prediction column, and
when every year is at least 2012, exactly what `loss_mse` returns on the
second prediction column. -/
theorem c4_nl_refines_mse (st : LossState α) (labels : List α)
    (preds : List (α × α)) (years : List ℤ) (b : Bool)
    (h : years.length = preds.length) :
    ((∀ y ∈ years, y < 2012) →
      loss_nl st labels preds years b
        = loss_mse st labels (preds.map Prod.fst) b) ∧
    ((∀ y ∈ years, 2012 ≤ y) →
      loss_nl st labels preds years b
        = loss_mse st labels (preds.map Prod.snd) b) := by
  constructor
  · intro hall
    rw [loss_nl_eq, select_all_lt years preds h hall]
  · intro hall
    rw [loss_nl_eq, select_all_ge years preds h hall]

/-- C4 witness: the refinement statement applied to concrete all-DMSP and
all-VIIRS batches. -/
theorem c4_nl_refines_mse_witness :
    (loss_nl (⟨[], [2]⟩ : LossState ℚ) [1, 2] [(3, 4), (5, 6)] [2010, 2011]
        true
      = loss_mse (⟨[], [2]⟩ : LossState ℚ) [1, 2]
          ([((3 : ℚ), (4 : ℚ)), (5, 6)].map Prod.fst) true) ∧
    (loss_nl (⟨[], [2]⟩ : LossState ℚ) [1, 2] [(3, 4), (5, 6)] [2012, 2013]
        true
      = loss_mse (⟨[], [2]⟩ : LossState ℚ) [1, 2]
          ([((3 : ℚ), (4 : ℚ)), (5, 6)].map Prod.snd) true) :=
  ⟨(c4_nl_refines_mse ⟨[], [2]⟩ [1, 2] [(3, 4), (5, 6)] [2010, 2011] true
      rfl).1 (by decide),
    (c4_nl_refines_mse ⟨[], [2]⟩ [1, 2] [(3, 4), (5, 6)] [2012, 2013] true
      rfl).2 (by decide)⟩

/-- C5: `loss_xent`, given integer class labels in range and one row of
logits per example, returns as task loss the softmax cross-entropy summed
over the examples and divided by the number of examples with non-zero
weight; with the function's all-ones weights that count equals the batch
size. -/
theorem c5_xent_softmax_mean (st : LossState ℝ) (labels : List ℕ)
    (logits : List (List ℝ)) (b : Bool)
    (h1 : labels.length = logits.length)
    (h2 : ∀ p ∈ List.zip labels logits, p.1 < p.2.length) :
    ∃ total reg s, loss_xent st labels logits b
      = some (total,
        (List.zipWith (fun l row => -Real.log (softmax row l))
          labels logits).sum
          / num_present (List.replicate labels.length (1 : ℝ)),
        reg, s)
      ∧ num_present (List.replicate labels.length (1 : ℝ))
          = (labels.length : ℝ) := by
  have hce : List.zipWith sparse_xent_with_logits labels logits
      = List.zipWith (fun l row => -Real.log (softmax row l)) labels logits :=
    zipWith_congr_mem _ _ labels logits
      fun p hp => sparse_xent_eq_neg_log_softmax p.1 p.2 (h2 p hp)
  have hlen : (List.zipWith sparse_xent_with_logits labels logits).length
      = labels.length := by
    simp [List.length_zipWith, h1]
  have htask : (sparse_softmax_cross_entropy st labels logits).1
      = (List.zipWith (fun l row => -Real.log (softmax row l))
          labels logits).sum
          / num_present (List.replicate labels.length (1 : ℝ)) := by
    rw [sparse_softmax_cross_entropy_fst, hlen, hce]
  rw [loss_xent_eq, htask]
  exact ⟨_, _, _, rfl, num_present_replicate_one _⟩

/-- C5 witness: the softmax cross-entropy statement applied to the concrete
scenario `labels = [0, 1]` with one row of two logits per example. -/
theorem c5_xent_softmax_mean_witness :
    ∃ total reg s,
      loss_xent (⟨[], []⟩ : LossState ℝ) [0, 1] [[2, 1], [0, 3]] false
      = some (total,
        (List.zipWith (fun l row => -Real.log (softmax row l))
          [0, 1] [[(2 : ℝ), 1], [0, 3]]).sum
          / num_present (List.replicate ([0, 1] : List ℕ).length (1 : ℝ)),
        reg, s)
      ∧ num_present (List.replicate ([0, 1] : List ℕ).length (1 : ℝ))
          = (([0, 1] : List ℕ).length : ℝ) :=
  c5_xent_softmax_mean ⟨[], []⟩ [0, 1] [[2, 1], [0, 3]] false rfl (by decide)

/-- C7: for every call to any of the three public functions, the returned
summary component is absent (`none`) when the summary flag is false, and
when the flag is true it is a present bundle holding exactly three named
scalar records. -/
theorem c7_summary_flag_shape :
    (∀ (st : LossState ℝ) labels preds years,
      (∃ t task r, loss_nl st labels preds years false
        = some (t, task, r, none)) ∧
      ∃ t task r s, loss_nl st labels preds years true
        = some (t, task, r, some s) ∧ s.length = 3) ∧
    (∀ (st : LossState ℝ) labels preds,
      (∃ t task r, loss_mse st labels preds false
        = some (t, task, r, none)) ∧
      ∃ t task r s, loss_mse st labels preds true
        = some (t, task, r, some s) ∧ s.length = 3) ∧
    (∀ (st : LossState ℝ) labels logits,
      (∃ t task r, loss_xent st labels logits false
        = some (t, task, r, none)) ∧
      ∃ t task r s, loss_xent st labels logits true
        = some (t, task, r, some s) ∧ s.length = 3) := by
  refine ⟨?_, ?_, ?_⟩
  · intro st labels preds years
    constructor
    · rw [loss_nl_eq, loss_mse_eq]
      exact ⟨_, _, _, rfl⟩
    · rw [loss_nl_eq, loss_mse_eq]
      exact ⟨_, _, _, _, rfl, rfl⟩
  · intro st labels preds
    constructor
    · rw [loss_mse_eq]
      exact ⟨_, _, _, rfl⟩
    · rw [loss_mse_eq]
      exact ⟨_, _, _, _, rfl, rfl⟩
  · intro st labels logits
    constructor
    · rw [loss_xent_eq]
      exact ⟨_, _, _, rfl⟩
    · rw [loss_xent_eq]
      exact ⟨_, _, _, _, rfl, rfl⟩

/-- C8: when summaries are enabled, the bundle returned by each public
function holds exactly the records named `loss_total` (carrying the
returned total), `loss_regularization_only` (carrying the returned
regularization loss), and a task-specific record carrying the returned task
loss, named `loss_mse` for the nightlights and generic MSE functions and
`loss_cross_entropy` for the cross-entropy function. -/
theorem c8_summary_names :
    (∀ (st : LossState ℝ) labels preds years,
      ∃ t task r, loss_nl st labels preds years true
        = some (t, task, r,
            some [("loss_total", t), ("loss_regularization_only", r),
              ("loss_mse", task)])) ∧
    (∀ (st : LossState ℝ) labels preds,
      ∃ t task r, loss_mse st labels preds true
        = some (t, task, r,
            some [("loss_total", t), ("loss_regularization_only", r),
              ("loss_mse", task)])) ∧
    (∀ (st : LossState ℝ) labels logits,
      ∃ t task r, loss_xent st labels logits true
        = some (t, task, r,
            some [("loss_total", t), ("loss_regularization_only", r),
              ("loss_cross_entropy", task)])) := by
  refine ⟨?_, ?_, ?_⟩
  · intro st labels preds years
    rw [loss_nl_eq, loss_mse_eq]
    exact ⟨_, _, _, rfl⟩
  · intro st labels preds
    rw [loss_mse_eq]
    exact ⟨_, _, _, rfl⟩
  · intro st labels logits
    rw [loss_xent_eq]
    exact ⟨_, _, _, rfl⟩

/-- C10: for each public function, two calls that differ only in the
summary flag return identical numeric results (total, task and
regularization loss); the flag only switches the summary component between
a present bundle and `none`. -/
theorem c10_flag_noninterference :
    (∀ (st : LossState ℝ) labels preds years,
      ∃ t task r s, loss_nl st labels preds years true
          = some (t, task, r, some s) ∧
        loss_nl st labels preds years false = some (t, task, r, none)) ∧
    (∀ (st : LossState ℝ) labels preds,
      ∃ t task r s, loss_mse st labels preds true
          = some (t, task, r, some s) ∧
        loss_mse st labels preds false = some (t, task, r, none)) ∧
    (∀ (st : LossState ℝ) labels logits,
      ∃ t task r s, loss_xent st labels logits true
          = some (t, task, r, some s) ∧
        loss_xent st labels logits false = some (t, task, r, none)) := by
  refine ⟨?_, ?_, ?_⟩
  · intro st labels preds years
    simp only [loss_nl_eq, loss_mse_eq]
    exact ⟨_, _, _, _, rfl, rfl⟩
  · intro st labels preds
    simp only [loss_mse_eq]
    exact ⟨_, _, _, _, rfl, rfl⟩
  · intro st labels logits
    simp only [loss_xent_eq]
    exact ⟨_, _, _, _, rfl, rfl⟩

end LossUtils
